import Mathlib

/-!
# Index Planning Engine — verification development

Shallow embedding of the core of the Reference Repo Manager
(`src/core/constants.ts`, `src/core/plan.ts`, `src/core/ignore-rules.ts`,
`src/core/baseline.ts`, `src/core/manifest.ts`, `src/core/path.ts`) together
with theorems about the embedded definitions.

Modelling conventions:
* JS numbers that hold byte sizes and counts are modelled as `Nat`
  (they are always non-negative integers in the source).
* JS strings are modelled as Lean `String`s; the handful of string
  operations the source uses (`split('/')`, `startsWith`, `slice(1)`,
  `toLowerCase`, `path.extname`) are defined structurally over the
  character list `String.data` so that they compute by kernel reduction.
  `toLowerCase` is modelled with `Char.toLower`, which agrees with the JS
  method on ASCII (all extension keys the planner meets are ASCII).
* The file system is modelled as an explicit tree (`FSTree`); `fs.existsSync`
  on a repo root corresponds to an `Option` being `some`; a failing
  `fs.statSync` on a file is modelled by the `statOk` flag of a file node.
* The third-party `ignore` npm package (an external dependency, not part of
  this repository) is modelled as an arbitrary predicate `ig : String → Bool`
  (`ig rel = true` iff `ig.ignores(rel)`); all theorems about the walker hold
  for every such predicate, hence in particular for whatever matcher the
  library compiles from `buildIgnoreContent`.
* JS `Array.prototype.sort` (a stable comparison sort per ES2019) is
  modelled with `List.insertionSort`; the default string comparator is
  modelled with Lean's lexicographic `≤` on `String` (identical on
  strings without surrogate pairs).
* JS `Set` membership over a list of strings is modelled by list membership.
-/

namespace RefRepo

/-! ## JS string primitives -/

/-- Splitting on a one-character separator (JS `String.prototype.split`
with a one-character argument), on the character list of a string.  The
result is always a non-empty list of (possibly empty) chunks; splitting the
empty string yields `[[]]`, as in JS `''.split('/') == ['']`. -/
def splitChars (sep : Char) : List Char → List (List Char)
  | [] => [[]]
  | c :: cs =>
    match splitChars sep cs with
    | [] => [[]]
    | chunk :: chunks =>
      if c = sep then [] :: chunk :: chunks else (c :: chunk) :: chunks

/-- Splitting a path string on `/` (JS `relativePath.split('/')`), as a list
of path components. -/
def splitPath (s : String) : List String :=
  (splitChars '/' s.data).map String.mk

/-- Test for a starting sequence (JS `String.prototype.startsWith`), on
character lists. -/
def startsWithChars : List Char → List Char → Bool
  | _, [] => true
  | [], _ :: _ => false
  | c :: cs, p :: ps => c = p && startsWithChars cs ps

/-- Model of JS `s.startsWith(pre)`. -/
def jsStartsWith (s pre : String) : Bool :=
  startsWithChars s.data pre.data

/-- Model of JS `s.toLowerCase()` (ASCII-faithful, via `Char.toLower`). -/
def jsToLowerCase (s : String) : String :=
  ⟨s.data.map Char.toLower⟩

/-! ## Warning levels and plan thresholds
(src/core/types.ts, src/core/constants.ts) -/

inductive WarningLevel where
  | green
  | yellow
  | red
deriving DecidableEq, Repr

structure PlanThresholds where
  maxTotalBytesWarning : Nat
  maxTotalBytesError : Nat
  maxFileCountWarning : Nat
  maxFileCountError : Nat
deriving Repr

/-- Constant `PLAN_THRESHOLDS` from src/core/constants.ts. -/
def PLAN_THRESHOLDS : PlanThresholds :=
  { maxTotalBytesWarning := 15 * 1024 * 1024
    maxTotalBytesError := 50 * 1024 * 1024
    maxFileCountWarning := 2500
    maxFileCountError := 10000 }

/-- Constant `DEFAULT_MAX_FILE_SIZE_BYTES` from src/core/constants.ts. -/
def DEFAULT_MAX_FILE_SIZE_BYTES : Nat := 1 * 1024 * 1024

/-- Function `getWarningLevel` from src/core/plan.ts. -/
def getWarningLevel (fileCount : Nat) (totalBytes : Nat) : WarningLevel :=
  if totalBytes > PLAN_THRESHOLDS.maxTotalBytesError
      ∨ fileCount > PLAN_THRESHOLDS.maxFileCountError then
    .red
  else if totalBytes > PLAN_THRESHOLDS.maxTotalBytesWarning
      ∨ fileCount > PLAN_THRESHOLDS.maxFileCountWarning then
    .yellow
  else
    .green

/-- Function `generateWarnings` from src/core/plan.ts.  The branch structure
(error-tier message preferred over warning-tier, bytes message before count
message) is modelled exactly; the message text embeds the offending value
with `toString` instead of the source's `formatBytes`/`toLocaleString`
number formatting, which depends on floating-point `Math.log` and locale
rules that no claim refers to. -/
def generateWarnings (fileCount totalBytes : Nat) : List String :=
  (if totalBytes > PLAN_THRESHOLDS.maxTotalBytesError then
    ["Total bytes (" ++ toString totalBytes ++ ") exceeds error threshold"]
  else if totalBytes > PLAN_THRESHOLDS.maxTotalBytesWarning then
    ["Total bytes (" ++ toString totalBytes ++ ") exceeds warning threshold"]
  else []) ++
  (if fileCount > PLAN_THRESHOLDS.maxFileCountError then
    ["File count (" ++ toString fileCount ++ ") exceeds error threshold"]
  else if fileCount > PLAN_THRESHOLDS.maxFileCountWarning then
    ["File count (" ++ toString fileCount ++ ") exceeds warning threshold"]
  else [])

/-! ## The tree walker (src/core/plan.ts) -/

/-- A file record as produced by the walker (`FileStat` in src/core/plan.ts). -/
structure FileStat where
  path : String
  bytes : Nat
deriving DecidableEq, Repr

/-- A node of the modelled file system.  A `file` carries its size and
whether `fs.statSync` succeeds on it; a `dir` carries its `readdirSync`
listing as a list of (entry name, subtree) pairs in traversal order. -/
inductive FSTree where
  | file (size : Nat) (statOk : Bool) : FSTree
  | dir (entries : List (String × FSTree)) : FSTree

/-- Function `isHiddenPath` from src/core/plan.ts:
split the relative path on `/` and look for a component other than `.` and
`..` that starts with `.`. -/
def isHiddenPath (relativePath : String) : Bool :=
  (splitPath relativePath).any fun part =>
    jsStartsWith part "." && part != "." && part != ".."

/-- Composition `toPosixPath(path.relative(baseDir, path.join(dir, entry.name)))`
from src/core/plan.ts, expressed on relative paths: the relative path of an
entry is its name at the walk root, and `parent ++ "/" ++ name` below it
(POSIX forward-slash form, as guaranteed by `toPosixPath` in
src/core/path.ts). -/
def childRelPath (parentRel : String) (name : String) : String :=
  if parentRel = "" then name else parentRel ++ "/" ++ name

/-- Loop body of `walkDirectory` from src/core/plan.ts, walking the listing
of one directory (whose path relative to the walk root is `parentRel`) and
accumulating included files into `files` in push order. -/
def walkEntries (ig : String → Bool) (maxFileSize : Nat) :
    String → List (String × FSTree) → List FileStat → List FileStat
  | _, [], files => files
  | parentRel, (name, t) :: rest, files =>
    -- Skip hidden files/directories (matches mgrep behavior)
    if isHiddenPath (childRelPath parentRel name) then
      walkEntries ig maxFileSize parentRel rest files
    -- Skip if ignored
    else if ig (childRelPath parentRel name) then
      walkEntries ig maxFileSize parentRel rest files
    else
      match t with
      | .dir sub =>
        -- Check if directory is ignored (with trailing slash)
        if ig (childRelPath parentRel name ++ "/") then
          walkEntries ig maxFileSize parentRel rest files
        else
          walkEntries ig maxFileSize parentRel rest
            (walkEntries ig maxFileSize (childRelPath parentRel name) sub files)
      | .file size statOk =>
        if statOk then
          -- Skip files over max size
          if size ≤ maxFileSize then
            walkEntries ig maxFileSize parentRel rest
              (files ++ [⟨childRelPath parentRel name, size⟩])
          else
            walkEntries ig maxFileSize parentRel rest files
        else
          -- Skip files we can't stat
          walkEntries ig maxFileSize parentRel rest files

/-- Function `walkDirectory` from src/core/plan.ts, at the root call site:
`root = none` models a root path for which `fs.existsSync` is false. -/
def walkDirectory (root : Option (List (String × FSTree))) (ig : String → Bool)
    (maxFileSize : Nat) : List FileStat :=
  match root with
  | none => []
  | some entries => walkEntries ig maxFileSize "" entries []

/-! ## Ignore rules (src/core/ignore-rules.ts) -/

/-- Interface `RepoIgnoreConfig` from src/core/ignore-rules.ts.  The
`keepPaths` documentation field is omitted: no entry of
`REPO_SPECIFIC_IGNORES` sets it and nothing reads it. -/
structure RepoIgnoreConfig where
  id : String
  dropPaths : List String
  notes : Option String := none
deriving DecidableEq, Repr

/-- Constant `GLOBAL_IGNORE_PATTERNS` from src/core/ignore-rules.ts, in
declaration order. -/
def GLOBAL_IGNORE_PATTERNS : List String := [
  "pnpm-lock.yaml", "package-lock.json", "yarn.lock", "bun.lockb",
  "bun.lock", "dist/", "build/", "es/", ".output/", ".next/", ".nuxt/",
  ".svelte-kit/", ".vinxi/", ".nx/", ".tshy/", "node_modules/", ".turbo/",
  ".vercel/", ".wrangler/", ".vite/", ".cache/", ".parcel-cache/",
  ".rollup.cache/", ".server-tmp/", "app-build/", "*.svelte", "*.vue",
  "*.astro", "wrangler.jsonc", "wrangler.toml", "worker-configuration.d.ts",
  "drizzle/", "drizzle.config.ts", "_generated/", "*.gen.ts", "*.gen.js",
  ".git/", ".github/", ".changeset/", "codecov.yml", "labeler-config.yml",
  ".gitattributes", "CONTRIBUTING.md", "FUNDING.json", "*.test.ts",
  "*.test.tsx", "*.test.js", "*.test.jsx", "*.spec.ts", "*.spec.tsx",
  "*.test.*.ts", "tests/fixtures/", "__fixtures__/", "test-results/",
  "coverage/", "__snapshots__/", "*.snap", "*.notest.*", "*.test-d.ts",
  "biome.json", "knip.json", "knip.jsonc", "tsdown.config.ts",
  "tsup.config.ts", ".prettierrc*", ".eslintrc*", "eslint.config.*",
  "vitest.config.*", "jest.config.*", "playwright.config.*", "*.zip",
  "*.tar.gz", "*.rar", "*.db", "*.sqlite", "*.sqlite3", "site.webmanifest",
  "media/", "*.png", "*.jpg", "*.jpeg", "*.gif", "*.ico", "*.svg", "*.webp",
  "*.woff*", "*.ttf", "*.eot", "*.pdf", ".env", ".env.*", "!.env.example",
  ".vscode/", ".idea/", ".cursor/", ".claude/", ".cspell/", ".cspell.json",
  ".cspell.jsonc", ".DS_Store", "Thumbs.db", "desktop.ini", ".convex/",
  "*.log", "npm-debug.log*", "yarn-debug.log*", "yarn-error.log*",
  "pnpm-debug.log*", "*.tsbuildinfo"
]

/-- Constant `REPO_SPECIFIC_IGNORES` from src/core/ignore-rules.ts, in
declaration order. -/
def REPO_SPECIFIC_IGNORES : List RepoIgnoreConfig := [
  { id := "tanstack-router",
    notes := some "Keep React + Start only, drop other frameworks",
    dropPaths := [
      "packages/solid-router/", "packages/solid-start/",
      "packages/solid-start-client/", "packages/solid-start-server/",
      "packages/solid-router-devtools/", "packages/solid-router-ssr-query/",
      "packages/vue-router/", "packages/vue-router-devtools/",
      "packages/vue-router-ssr-query/", "packages/vue-start/",
      "packages/vue-start-client/", "packages/vue-start-server/",
      "packages/arktype-adapter/", "packages/valibot-adapter/",
      "docs/router/framework/solid/", "docs/router/framework/vue/",
      "docs/start/framework/solid/", "docs/router/api/",
      "docs/router/framework/react/installation/",
      "docs/router/framework/react/how-to/drafts/",
      "docs/router/framework/react/how-to/migrate-from-react-router.md",
      "docs/router/framework/react/how-to/migrate-from-react-location.md",
      "docs/router/framework/react/how-to/integrate-chakra-ui.md",
      "docs/router/framework/react/how-to/integrate-material-ui.md",
      "docs/router/framework/react/how-to/integrate-framer-motion.md",
      "docs/start/framework/react/migrate-from-next-js.md", "examples/vue/",
      "examples/solid/", "e2e/", "examples/react/basic/",
      "examples/react/basic-file-based/", "examples/react/basic-react-query/",
      "examples/react/basic-devtools-panel/",
      "examples/react/basic-non-nested-devtools/",
      "examples/react/basic-default-search-params/",
      "examples/react/basic-virtual-inside-file-based/",
      "examples/react/quickstart/", "examples/react/quickstart-file-based/",
      "examples/react/quickstart-rspack-file-based/",
      "examples/react/quickstart-webpack-file-based/",
      "examples/react/quickstart-esbuild-file-based/",
      "examples/react/router-monorepo-react-vite/",
      "examples/react/router-monorepo-simple/",
      "examples/react/router-monorepo-simple-lazy/",
      "examples/react/kitchen-sink/",
      "examples/react/kitchen-sink-react-query/",
      "examples/react/large-file-based/", "examples/react/deferred-data/",
      "examples/react/i18n-paraglide/", "examples/react/scroll-restoration/",
      "examples/react/location-masking/", "examples/react/view-transitions/",
      "examples/react/with-framer-motion/", "examples/react/with-trpc/",
      "examples/react/with-trpc-react-query/",
      "examples/react/navigation-blocking/",
      "examples/react/search-validator-adapters/",
      "examples/react/start-clerk-basic/",
      "examples/react/start-supabase-basic/", "examples/react/start-workos/",
      "examples/react/start-large/", "examples/react/start-i18n-paraglide/",
      "examples/react/start-material-ui/", "examples/react/start-bun/",
      "examples/react/start-basic-cloudflare/",
      "examples/react/start-basic-rsc/", "examples/react/start-basic-static/",
      "examples/react/authenticated-routes-firebase/",
      "examples/react/authenticated-routes/",
      "examples/react/basic-react-query-file-based/",
      "examples/react/basic-ssr-file-based/",
      "examples/react/basic-ssr-streaming-file-based/",
      "examples/react/basic-virtual-file-based/",
      "examples/react/kitchen-sink-file-based/",
      "examples/react/kitchen-sink-react-query-file-based/",
      "examples/react/router-monorepo-react-query/",
      "examples/react/start-basic-auth/", "examples/react/start-basic-authjs/",
      "examples/react/start-bare/", "examples/react/start-counter/",
      "examples/react/start-trellaux/", "packages/nitro-v2-vite-plugin/",
      "packages/router-cli/", "packages/directive-functions-plugin/",
      "packages/router-generator/tests/", "packages/router-plugin/tests/",
      "packages/start-plugin-core/tests/", "gpt/", "scripts/"
    ] },
  { id := "tanstack-query",
    notes := some "Keep React + core only",
    dropPaths := [
      "packages/vue-query/", "packages/solid-query/",
      "packages/svelte-query/", "packages/angular-query-experimental/",
      "packages/vue-query-devtools/", "packages/solid-query-devtools/",
      "packages/svelte-query-devtools/",
      "packages/svelte-query-persist-client/",
      "packages/solid-query-persist-client/",
      "packages/angular-query-persist-client/",
      "packages/query-broadcast-client-experimental/",
      "packages/react-query-next-experimental/", "packages/query-codemods/",
      "packages/eslint-plugin-query/", "packages/react-query-devtools/",
      "packages/query-devtools/src/icons/",
      "packages/query-devtools/src/theme.ts",
      "packages/query-devtools/src/constants.ts",
      "packages/query-devtools/src/PiPContext.tsx",
      "packages/query-devtools/src/DevtoolsComponent.tsx",
      "packages/query-devtools/src/DevtoolsPanelComponent.tsx",
      "docs/framework/vue/", "docs/framework/solid/",
      "docs/framework/svelte/", "docs/framework/angular/",
      "examples/angular/", "examples/solid/", "examples/svelte/",
      "examples/vue/", "examples/react/simple/", "examples/react/basic/",
      "examples/react/basic-graphql-request/", "examples/react/pagination/",
      "examples/react/prefetching/",
      "examples/react/optimistic-updates-cache/",
      "examples/react/optimistic-updates-ui/",
      "examples/react/infinite-query-with-max-pages/",
      "examples/react/auto-refetching/",
      "examples/react/load-more-infinite-scroll/", "examples/react/chat/",
      "examples/react/default-query-function/",
      "examples/react/devtools-panel/", "examples/react/offline/",
      "examples/react/playground/", "examples/react/rick-morty/",
      "examples/react/star-wars/", "examples/react/eslint-legacy/",
      "examples/react/shadow-dom/", "examples/react/react-native/",
      "examples/react/algolia/", "examples/react/nextjs/",
      "examples/react/nextjs-suspense-streaming/",
      "packages/query-test-utils/", "packages/query-async-storage-persister/",
      "packages/query-sync-storage-persister/", "integrations/", "scripts/",
      "examples/react/react-router/", "examples/react/nextjs-app-prefetching/"
    ] },
  { id := "tanstack-table",
    notes := some "Keep table-core, react-table, and dashboard examples",
    dropPaths := [
      "packages/angular-table/", "packages/vue-table/",
      "packages/svelte-table/", "packages/solid-table/",
      "packages/lit-table/", "packages/qwik-table/",
      "packages/react-table-devtools/", "examples/angular/", "examples/vue/",
      "examples/svelte/", "examples/solid/", "examples/lit/",
      "examples/qwik/", "examples/vanilla/",
      "examples/react/virtualized-rows/",
      "examples/react/virtualized-rows-experimental/",
      "examples/react/virtualized-columns/",
      "examples/react/virtualized-columns-experimental/",
      "examples/react/column-dnd/", "examples/react/column-ordering/",
      "examples/react/column-pinning-sticky/", "examples/react/column-sizing/",
      "examples/react/column-groups/", "examples/react/row-dnd/",
      "examples/react/row-pinning/",
      "examples/react/full-width-resizable-table/",
      "examples/react/full-width-table/", "examples/react/custom-features/",
      "examples/react/expanding/", "examples/react/grouping/",
      "examples/react/material-ui-pagination/",
      "examples/react/sub-components/", "examples/react/bootstrap/",
      "docs/", "media/", "scripts/"
    ] },
  { id := "tanstack-form",
    notes := some "Keep React form + TanStack Start only",
    dropPaths := [
      "packages/vue-form/", "packages/solid-form/", "packages/angular-form/",
      "packages/lit-form/", "packages/svelte-form/",
      "packages/solid-form-devtools/", "examples/vue/", "examples/solid/",
      "examples/angular/", "examples/lit/", "examples/svelte/",
      "docs/framework/angular/", "docs/framework/lit/",
      "docs/framework/solid/", "docs/framework/svelte/",
      "docs/framework/vue/", "packages/form-devtools/",
      "packages/react-form-devtools/", "packages/react-form-nextjs/",
      "packages/react-form-remix/", "examples/react/remix/",
      "examples/react/next-server-actions/"
    ] },
  { id := "better-auth-main",
    notes := some "Keep core + TanStack integration, drop other frameworks/adapters",
    dropPaths := [
      "docs/app/", "docs/components/", "docs/public/", "docs/content/blogs/",
      "docs/content/changelogs/", "docs/content/docs/adapters/",
      "packages/better-auth/src/test-utils/",
      "packages/better-auth/src/adapters/create-test-suite.ts",
      "packages/better-auth/src/adapters/*/test/",
      "packages/better-auth/src/adapters/tests/", "e2e/", "test/",
      "examples/next/", "examples/react/",
      "packages/better-auth/src/integrations/next-js.ts",
      "packages/better-auth/src/integrations/svelte-kit.ts",
      "packages/better-auth/src/integrations/solid-start.ts",
      "packages/better-auth/src/client/solid/",
      "packages/better-auth/src/client/svelte/",
      "packages/better-auth/src/client/vue/", "demo/nextjs/",
      "demo/stateless/", "demo/expo/", "demo/oidc-client/", "packages/expo/",
      "packages/cli/", "packages/stripe/", "packages/scim/",
      "packages/telemetry/", "packages/better-auth/src/plugins/admin/",
      "packages/better-auth/src/plugins/api-key/",
      "packages/better-auth/src/plugins/captcha/",
      "packages/better-auth/src/plugins/device-authorization/",
      "packages/better-auth/src/plugins/generic-oauth/",
      "packages/better-auth/src/plugins/haveibeenpwned/",
      "packages/better-auth/src/plugins/mcp/",
      "packages/better-auth/src/plugins/oauth-proxy/",
      "packages/better-auth/src/plugins/oidc-provider/",
      "packages/better-auth/src/plugins/one-tap/",
      "packages/better-auth/src/plugins/one-time-token/",
      "packages/better-auth/src/plugins/open-api/",
      "packages/better-auth/src/plugins/phone-number/",
      "packages/better-auth/src/plugins/siwe/",
      "packages/better-auth/src/plugins/username/",
      "packages/better-auth/src/plugins/bearer/",
      "packages/better-auth/src/plugins/custom-session/",
      "packages/better-auth/src/plugins/jwt/",
      "packages/better-auth/src/plugins/last-login-method/",
      "packages/better-auth/src/plugins/additional-fields/",
      "packages/core/src/social-providers/twitch.ts",
      "packages/core/src/social-providers/discord.ts",
      "packages/core/src/social-providers/tiktok.ts",
      "packages/core/src/social-providers/twitter.ts",
      "packages/core/src/social-providers/spotify.ts",
      "packages/core/src/social-providers/reddit.ts",
      "packages/core/src/social-providers/notion.ts",
      "packages/core/src/social-providers/kick.ts",
      "packages/core/src/social-providers/roblox.ts",
      "packages/core/src/social-providers/kakao.ts",
      "packages/core/src/social-providers/naver.ts",
      "packages/core/src/social-providers/line.ts",
      "packages/core/src/social-providers/vk.ts",
      "packages/core/src/social-providers/figma.ts",
      "packages/core/src/social-providers/dropbox.ts",
      "packages/core/src/social-providers/paypal.ts",
      "packages/core/src/social-providers/polar.ts",
      "packages/core/src/social-providers/linear.ts",
      "packages/core/src/social-providers/huggingface.ts",
      "packages/core/src/social-providers/cognito.ts",
      "packages/core/src/social-providers/atlassian.ts"
    ] },
  { id := "better-auth-convex",
    notes := some "Keep TanStack Start example + core src",
    dropPaths := [
      "examples/next/", "examples/react/", "src/nextjs/",
      "src/plugins/cross-domain/", "docs/app/", "docs/components/",
      "docs/lib/", "docs/content/docs/framework-guides/expo.mdx",
      "docs/content/docs/framework-guides/next.mdx",
      "docs/content/docs/framework-guides/react.mdx",
      "docs/content/docs/framework-guides/sveltekit.mdx"
    ] },
  { id := "shadcn-ui",
    notes := some "Keep ONLY apps/v4/registry/new-york-v4/ui/, hooks/, lib/",
    dropPaths := [
      "packages/", "templates/", "deprecated/", "scripts/", "apps/v4/app/",
      "apps/v4/components/", "apps/v4/content/", "apps/v4/hooks/",
      "apps/v4/lib/", "apps/v4/public/", "apps/v4/scripts/",
      "apps/v4/styles/", "apps/v4/registry/bases/", "apps/v4/registry/icons/",
      "apps/v4/registry/styles/", "apps/v4/registry/new-york-v4/blocks/",
      "apps/v4/registry/new-york-v4/charts/",
      "apps/v4/registry/new-york-v4/examples/",
      "apps/v4/registry/new-york-v4/internal/"
    ] },
  { id := "convex-helpers",
    notes := some "Keep only high-value server modules (migrations, rateLimit, retries, triggers, pagination, relationships, filter, zod, rowLevelSecurity)",
    dropPaths := [
      ".cursor/", "scripts/", "src/", "convex/",
      "packages/convex-helpers/.npmignore",
      "packages/convex-helpers/generate-exports.mjs",
      "packages/convex-helpers/index.ts",
      "packages/convex-helpers/validators.ts",
      "packages/convex-helpers/standardSchema.ts",
      "packages/convex-helpers/browser.ts",
      "packages/convex-helpers/testing.ts", "packages/convex-helpers/server.ts",
      "packages/convex-helpers/react.ts", "packages/convex-helpers/react/",
      "packages/convex-helpers/cli/",
      "packages/convex-helpers/server/customFunctions.ts",
      "packages/convex-helpers/server/crud.ts",
      "packages/convex-helpers/server/sessions.ts",
      "packages/convex-helpers/server/hono.ts",
      "packages/convex-helpers/server/cors.ts",
      "packages/convex-helpers/server/compare.ts",
      "packages/convex-helpers/server/stream.ts",
      "packages/convex-helpers/server/zod3.ts",
      "packages/convex-helpers/server/zod4.ts"
    ] },
  { id := "convex-tanstack-start",
    notes := some "Critical reference repo - keep all source files",
    dropPaths := [] },
  { id := "convex-react-query",
    notes := some "Keep src, minimal exclusions",
    dropPaths := [] },
  { id := "tanstack-ai-demo",
    notes := some "Exclude non-Convex DB patterns",
    dropPaths := ["src/db/", "docker-compose.yml"] },
  { id := "tanstack-start-breadcrumbs",
    notes := some "Example repo - keep all",
    dropPaths := [] },
  { id := "tanstack-start-dashboard",
    notes := some "Dashboard example - keep routes and components",
    dropPaths := [] },
  { id := "turborepo-shadcn-ui",
    notes := some "Turborepo template - exclude Next.js docs app",
    dropPaths := ["apps/docs/"] }
]

/-- Function `getRepoIgnoreConfig` from src/core/ignore-rules.ts
(`Array.prototype.find` is modelled with `List.find?`). -/
def getRepoIgnoreConfig (repoId : String) : Option RepoIgnoreConfig :=
  REPO_SPECIFIC_IGNORES.find? fun r => r.id == repoId

/-- Initial `lines` of `buildIgnoreContent` from src/core/ignore-rules.ts. -/
def ignoreHeaderLines : List String := [
  "# ===========================================",
  "# AUTO-GENERATED by refrepo ignore build",
  "# Do not edit manually - changes will be overwritten",
  "# ===========================================",
  "",
  "# Global ignore rules"
]

/-- Model of the JS expression `o || fallback` for an optional string field
(`undefined` and the empty string are falsy). -/
def jsOrElse (o : Option String) (fallback : String) : String :=
  match o with
  | some s => if s = "" then fallback else s
  | none => fallback

/-- Function `buildIgnoreContent` from src/core/ignore-rules.ts.  The
`lines` array is built by the same pushes in the same order and joined with
newlines (`lines.join('\n')` is `String.intercalate`); `pattern.slice(1)`
is `String.drop pattern 1`. -/
def buildIgnoreContent (repoId : String) : String :=
  let lines := ignoreHeaderLines
  -- Add global patterns with **/ prefix for recursive matching
  let lines := lines ++ GLOBAL_IGNORE_PATTERNS.map fun pattern =>
    if jsStartsWith pattern "!" then
      -- Negation patterns: ! must be first character on line
      "!**/" ++ pattern.drop 1
    else
      "**/" ++ pattern
  -- Add repo-specific patterns
  let lines := match getRepoIgnoreConfig repoId with
    | some repoConfig =>
      if repoConfig.dropPaths.length > 0 then
        lines ++
          ["",
           "# ===========================================",
           "# Repo-specific: " ++ jsOrElse repoConfig.notes repoId,
           "# ==========================================="] ++
          repoConfig.dropPaths
      else
        lines
    | none => lines
  String.intercalate "\n" (lines ++ [""])

/-! ## Extension histogram and per-repo plans (src/core/plan.ts) -/

/-- Index of the last `.` in a character list, scanning with a running
index (`none` when there is no dot). -/
def lastDotIdxAux : List Char → Nat → Option Nat
  | [], _ => none
  | c :: cs, i =>
    match lastDotIdxAux cs (i + 1) with
    | some j => some j
    | none => if c = '.' then some i else none

/-- Extension of one path segment, following Node's `path.extname`
semantics on a basename: the substring from the last `.` to the end, except
that a basename with no dot, a basename whose only characters before its
last dot are none at all (the dot is the first character, as in `.env`),
and the basename `..` all have extension `''`. -/
def extnameOfBase (b : List Char) : String :=
  match lastDotIdxAux b 0 with
  | none => ""
  | some d => if d = 0 ∨ b = ['.', '.'] then "" else ⟨b.drop d⟩

/-- Model of Node `path.extname(p)` (POSIX): the extension of the last
non-empty path segment (trailing slashes are ignored, matching Node's
scan). -/
def extname (p : String) : String :=
  match ((splitPath p).filter fun s => s != "").getLast? with
  | none => ""
  | some b => extnameOfBase b.data

/-- Extension-histogram key of one file, from `buildExtensionHistogram` in
src/core/plan.ts: `path.extname(file.path).toLowerCase() || '(no ext)'`
(the empty string is falsy in JS). -/
def extKeyOfPath (p : String) : String :=
  if jsToLowerCase (extname p) = "" then "(no ext)" else jsToLowerCase (extname p)

/-- Entry of the extension histogram (`ExtensionCount` in src/core/plan.ts). -/
structure ExtensionCount where
  ext : String
  count : Nat
deriving DecidableEq, Repr

/-- Model of `counts.set(ext, (counts.get(ext) || 0) + 1)` on a JS `Map`
represented as an association list in insertion order: an existing key is
updated in place, a new key is appended at the end. -/
def bumpExtCount : List (String × Nat) → String → List (String × Nat)
  | [], ext => [(ext, 1)]
  | (k, c) :: rest, ext =>
    if k = ext then (k, c + 1) :: rest else (k, c) :: bumpExtCount rest ext

/-- Comparator `(a, b) => b.count - a.count` of `buildExtensionHistogram`
(sort by descending count), as an ordering relation. -/
def countDesc (a b : ExtensionCount) : Prop := b.count ≤ a.count

instance : DecidableRel countDesc := fun a b =>
  inferInstanceAs (Decidable (b.count ≤ a.count))

instance : IsTotal ExtensionCount countDesc :=
  ⟨fun a b => Nat.le_total b.count a.count⟩

instance : IsTrans ExtensionCount countDesc :=
  ⟨fun _ _ _ hab hbc => Nat.le_trans hbc hab⟩

/-- Function `buildExtensionHistogram` from src/core/plan.ts. -/
def buildExtensionHistogram (files : List FileStat) : List ExtensionCount :=
  let counts := files.foldl (fun m file => bumpExtCount m (extKeyOfPath file.path)) []
  (counts.map fun p => { ext := p.1, count := p.2 }).insertionSort countDesc

/-- Comparator `(a, b) => b.bytes - a.bytes` of `computeRepoPlan` (sort by
descending size), as an ordering relation. -/
def sizeDesc (a b : FileStat) : Prop := b.bytes ≤ a.bytes

instance : DecidableRel sizeDesc := fun a b =>
  inferInstanceAs (Decidable (b.bytes ≤ a.bytes))

instance : IsTotal FileStat sizeDesc :=
  ⟨fun a b => Nat.le_total b.bytes a.bytes⟩

instance : IsTrans FileStat sizeDesc :=
  ⟨fun _ _ _ hab hbc => Nat.le_trans hbc hab⟩

/-- Interface `PlanOptions` from src/core/plan.ts. -/
structure PlanOptions where
  maxFileSizeBytes : Option Nat := none
  repoId : Option String := none

/-- Model of `options.maxFileSizeBytes || DEFAULT_MAX_FILE_SIZE_BYTES`
(`undefined` and `0` are falsy in JS). -/
def resolveMaxFileSize (maxFileSizeBytes : Option Nat) : Nat :=
  match maxFileSizeBytes with
  | some n => if n = 0 then DEFAULT_MAX_FILE_SIZE_BYTES else n
  | none => DEFAULT_MAX_FILE_SIZE_BYTES

/-- Interface `RepoPlanResult` from src/core/plan.ts (the fields of
`PlanResult` plus repo identification and the optional included-path
list). -/
structure RepoPlanResult where
  repoId : String
  repoName : String
  localDir : String
  repoPath : String
  includedFileCount : Nat
  includedTotalBytes : Nat
  topLargestFiles : List FileStat
  extensionHistogram : List ExtensionCount
  warningLevel : WarningLevel
  warnings : List String
  files : Option (List String)
deriving DecidableEq, Repr

/-- Function `computeRepoPlan` from src/core/plan.ts.  The matcher compiled
by the external `ignore` library from `buildIgnoreContent repoId` is the
parameter `ig`; the repo's on-disk tree (the argument of `walkDirectory`)
is `entriesAt` (`none` models a missing `repoPath`). -/
def computeRepoPlan (repoId repoName localDir repoPath : String)
    (ig : String → Bool) (entriesAt : Option (List (String × FSTree)))
    (options : PlanOptions) : RepoPlanResult :=
  let maxFileSize := resolveMaxFileSize options.maxFileSizeBytes
  let files := walkDirectory entriesAt ig maxFileSize
  let includedFileCount := files.length
  let includedTotalBytes := files.foldl (fun sum f => sum + f.bytes) 0
  { repoId := repoId
    repoName := repoName
    localDir := localDir
    repoPath := repoPath
    includedFileCount := includedFileCount
    includedTotalBytes := includedTotalBytes
    topLargestFiles := (files.insertionSort sizeDesc).take 10
    extensionHistogram := buildExtensionHistogram files
    warningLevel := getWarningLevel includedFileCount includedTotalBytes
    warnings := generateWarnings includedFileCount includedTotalBytes
    files := some (files.map fun f => localDir ++ "/" ++ f.path) }

/-! ## Baseline diffing (src/core/baseline.ts) -/

/-- Interface `Baseline` from src/core/baseline.ts. -/
structure Baseline where
  timestamp : String
  fileCount : Nat
  files : List String
deriving DecidableEq, Repr

/-- Diff result of `compareToBaseline`. -/
structure DiffResult where
  newFiles : List String
  removedFiles : List String
deriving DecidableEq, Repr

/-- Default JS `Array.prototype.sort()` on an array of strings, modelled
as a stable sort by the lexicographic order on `String`. -/
def jsSortStrings (l : List String) : List String :=
  l.insertionSort (· ≤ ·)

/-- Function `compareToBaseline` from src/core/baseline.ts.  The two JS
`Set`s are used only for `has` tests, which on a set built from a list are
list membership (`List.contains`); the loops over the input lists are the
two `filter`s, in input order, and each result is sorted in place. -/
def compareToBaseline (currentFiles : List String) (baseline : Baseline) :
    DiffResult :=
  let newFiles := currentFiles.filter fun file => !(baseline.files.contains file)
  let removedFiles := baseline.files.filter fun file => !(currentFiles.contains file)
  { newFiles := jsSortStrings newFiles
    removedFiles := jsSortStrings removedFiles }

/-! ## Manifest and the overall plan (src/core/manifest.ts, src/core/plan.ts) -/

/-- Type `RepoCategory` from src/core/types.ts (`'glue' | 'source' |
'example'`; the last value is spelled `exampleRepo` because `example` is a
Lean keyword). -/
inductive RepoCategory where
  | glue
  | source
  | exampleRepo
deriving DecidableEq, Repr

/-- Type `IgnoreMode` from src/core/types.ts. -/
inductive IgnoreMode where
  | denylist
  | allowlist
deriving DecidableEq, Repr

/-- Type `IgnoreStrategy` from src/core/types.ts. -/
inductive IgnoreStrategy where
  | perRepo
  | global
deriving DecidableEq, Repr

/-- Interface `SparseCheckoutConfig` from src/core/types.ts (the `include`
field is spelled `includePaths` because `include` is a Lean keyword). -/
structure SparseCheckoutConfig where
  enabled : Bool
  includePaths : List String
deriving DecidableEq, Repr

/-- Interface `MgrepConfig` from src/core/types.ts. -/
structure MgrepConfig where
  store : Option String := none
  maxFileSizeBytes : Option Nat := none
deriving DecidableEq, Repr

/-- Interface `IgnoreConfig` from src/core/types.ts. -/
structure IgnoreConfig where
  mode : IgnoreMode
  keepPaths : List String
  dropPaths : List String
  keepExtensions : Option (List String) := none
  dropExtensions : Option (List String) := none
deriving DecidableEq, Repr

/-- Interface `RepoConfig` from src/core/types.ts. -/
structure RepoConfig where
  id : String
  name : String
  url : String
  branch : String
  category : RepoCategory
  localDir : String
  enabled : Bool
  sparseCheckout : Option SparseCheckoutConfig := none
  mgrep : Option MgrepConfig := none
  ignore : Option IgnoreConfig := none
  mgrepIgnoreStrategy : Option IgnoreStrategy := none
deriving DecidableEq, Repr

/-- Interface `Manifest` from src/core/types.ts. -/
structure Manifest where
  version : Nat
  defaultRoot : String
  defaultStore : String
  repos : List RepoConfig
  customIgnores : Option (List String) := none
deriving DecidableEq, Repr

/-- Function `getEnabledRepos` from src/core/manifest.ts. -/
def getEnabledRepos (manifest : Manifest) : List RepoConfig :=
  manifest.repos.filter fun r => r.enabled

/-- Function `getRepoPath` from src/core/manifest.ts (`path.join(root,
localDir)`, modelled as separator concatenation for POSIX-form inputs). -/
def getRepoPath (root : String) (localDir : String) : String :=
  root ++ "/" ++ localDir

/-- Totals of `PlanSummary` from src/core/plan.ts. -/
structure PlanTotals where
  includedFileCount : Nat
  includedTotalBytes : Nat
  repoCount : Nat
deriving DecidableEq, Repr

/-- Interface `PlanSummary` from src/core/plan.ts. -/
structure PlanSummary where
  repos : List RepoPlanResult
  totals : PlanTotals
  overallWarningLevel : WarningLevel
  allFiles : List String
deriving DecidableEq, Repr

/-- Function `computePlan` from src/core/plan.ts.  `fsys` maps an absolute
repo path to its root directory listing (`none` where `fs.existsSync` is
false); `igFor repoId` is the matcher the `ignore` library compiles from
`buildIgnoreContent repoId` inside `computeRepoPlan`; the JS `throw` for an
unknown `options.repoId` is the `Except.error` case. -/
def computePlan (manifest : Manifest)
    (fsys : String → Option (List (String × FSTree)))
    (igFor : String → String → Bool) (options : PlanOptions) :
    Except String PlanSummary := do
  let root := manifest.defaultRoot
  let enabledRepos ←
    match options.repoId with
    | some rid =>
      let filtered := (getEnabledRepos manifest).filter fun r => r.id == rid
      if filtered.length = 0 then
        throw ("Repo not found: " ++ rid)
      else
        pure filtered
    | none => pure (getEnabledRepos manifest)
  let repos := enabledRepos.map fun repo =>
    let repoPath := getRepoPath root repo.localDir
    match fsys repoPath with
    | none =>
      -- Skip missing repos
      { repoId := repo.id
        repoName := repo.name
        localDir := repo.localDir
        repoPath := repoPath
        includedFileCount := 0
        includedTotalBytes := 0
        topLargestFiles := []
        extensionHistogram := []
        warningLevel := .green
        warnings := ["Repo not cloned"]
        files := none }
    | some entries =>
      computeRepoPlan repo.id repo.name repo.localDir repoPath
        (igFor repo.id) (some entries) options
  let totals : PlanTotals :=
    { includedFileCount := (repos.map RepoPlanResult.includedFileCount).sum
      includedTotalBytes := (repos.map RepoPlanResult.includedTotalBytes).sum
      repoCount := repos.length }
  let allFiles := repos.foldl
    (fun acc r => match r.files with | some fs => acc ++ fs | none => acc) []
  let overallWarningLevel : WarningLevel :=
    if repos.any (fun r => r.warningLevel == .red) then .red
    else if repos.any (fun r => r.warningLevel == .yellow) then .yellow
    else .green
  pure { repos := repos
         totals := totals
         overallWarningLevel := overallWarningLevel
         allFiles := allFiles }

/-! ## Spec-side rendering of the rule-set text

The following definitions follow the words of the specification (§6,
"Rule-set text rendering") rather than the source; the theorem for the
rendering claim compares them with `buildIgnoreContent`. -/

/-- Spec-side rendering of one global rule: prefixed with `**/` to match at
any depth; for a negated rule the `!` negation marker stays the first
character of the line, ahead of the `**/` prefix applied to the rest of the
pattern. -/
def specRenderGlobalRule (pattern : String) : String :=
  if jsStartsWith pattern "!" then
    "!" ++ ("**/" ++ pattern.drop 1)
  else
    "**/" ++ pattern

/-- Spec-side collection-specific section: present exactly when
collection-specific rules exist for the id, as a commented section header
followed by those rules verbatim; an unknown collection id contributes
nothing. -/
def specRenderRepoSection (repoId : String) : List String :=
  match getRepoIgnoreConfig repoId with
  | none => []
  | some cfg =>
    if cfg.dropPaths = [] then []
    else
      ["",
       "# ===========================================",
       "# Repo-specific: " ++ jsOrElse cfg.notes repoId,
       "# ==========================================="] ++ cfg.dropPaths

/-- Spec-side rendering of the whole rule-set text for a collection id:
header comment, the global rules first (each depth-prefixed, negation
marker kept first), then the collection-specific section when it exists,
and a trailing newline. -/
def specRenderRuleSet (repoId : String) : String :=
  String.intercalate "\n"
    (ignoreHeaderLines ++ GLOBAL_IGNORE_PATTERNS.map specRenderGlobalRule
      ++ specRenderRepoSection repoId ++ [""])

/-! ## Lemmas about the walker -/

/-- The accumulator only grows: everything already collected is in the
result of walking further entries. -/
theorem mem_walkEntries_of_mem (ig : String → Bool) (m : Nat) :
    ∀ (pref : String) (es : List (String × FSTree)) (files : List FileStat),
      ∀ f ∈ files, f ∈ walkEntries ig m pref es files := by
  intro pref es files
  induction pref, es, files using walkEntries.induct ig m with
  | case1 pref files =>
    intro f h; rw [walkEntries.eq_def]; exact h
  | case2 pref name t rest files h1 ih =>
    intro f h; rw [walkEntries.eq_def]
    simp only [h1, if_true]
    exact ih f h
  | case3 pref name t rest files h1 h2 ih =>
    intro f h; rw [walkEntries.eq_def]
    simp only [Bool.not_eq_true] at h1
    simp only [h1, h2, if_true, if_false, Bool.false_eq_true]
    exact ih f h
  | case4 pref name rest files h1 h2 sub h3 ih =>
    intro f h; rw [walkEntries.eq_def]
    simp only [Bool.not_eq_true] at h1 h2
    simp only [h1, h2, h3, if_true, if_false, Bool.false_eq_true]
    exact ih f h
  | case5 pref name rest files h1 h2 sub h3 ihsub ihrest =>
    intro f h; rw [walkEntries.eq_def]
    simp only [Bool.not_eq_true] at h1 h2 h3
    simp only [h1, h2, h3, if_false, Bool.false_eq_true]
    exact ihrest f (ihsub f h)
  | case6 pref name rest files h1 h2 size hsz ih =>
    intro f h; rw [walkEntries.eq_def]
    simp only [Bool.not_eq_true] at h1 h2
    simp only [h1, h2, hsz, if_true, if_false, Bool.false_eq_true]
    exact ih f (List.mem_append_left _ h)
  | case7 pref name rest files h1 h2 size hsz ih =>
    intro f h; rw [walkEntries.eq_def]
    simp only [Bool.not_eq_true] at h1 h2
    simp only [h1, h2, hsz, if_true, if_false, Bool.false_eq_true]
    exact ih f h
  | case8 pref name rest files h1 h2 size statOk hstat ih =>
    intro f h; rw [walkEntries.eq_def]
    simp only [Bool.not_eq_true] at h1 h2 hstat
    simp only [h1, h2, hstat, if_true, if_false, Bool.false_eq_true]
    exact ih f h

/-- Everything the walk of a directory listing collects is either already in
the accumulator, or is a record whose relative path is not hidden and whose
size is within the limit (every push site checks both). -/
theorem mem_walkEntries_elim (ig : String → Bool) (m : Nat) :
    ∀ (pref : String) (es : List (String × FSTree)) (files : List FileStat),
      ∀ f ∈ walkEntries ig m pref es files,
        f ∈ files ∨ (isHiddenPath f.path = false ∧ f.bytes ≤ m) := by
  intro pref es files
  induction pref, es, files using walkEntries.induct ig m with
  | case1 pref files =>
    intro f h; rw [walkEntries.eq_def] at h; exact .inl h
  | case2 pref name t rest files h1 ih =>
    intro f h; rw [walkEntries.eq_def] at h
    simp only [h1, if_true] at h
    exact ih f h
  | case3 pref name t rest files h1 h2 ih =>
    intro f h; rw [walkEntries.eq_def] at h
    simp only [Bool.not_eq_true] at h1
    simp only [h1, h2, if_true, if_false, Bool.false_eq_true] at h
    exact ih f h
  | case4 pref name rest files h1 h2 sub h3 ih =>
    intro f h; rw [walkEntries.eq_def] at h
    simp only [Bool.not_eq_true] at h1 h2
    simp only [h1, h2, h3, if_true, if_false, Bool.false_eq_true] at h
    exact ih f h
  | case5 pref name rest files h1 h2 sub h3 ihsub ihrest =>
    intro f h; rw [walkEntries.eq_def] at h
    simp only [Bool.not_eq_true] at h1 h2 h3
    simp only [h1, h2, h3, if_false, Bool.false_eq_true] at h
    rcases ihrest f h with hf | hf
    · exact ihsub f hf
    · exact .inr hf
  | case6 pref name rest files h1 h2 size hsz ih =>
    intro f h; rw [walkEntries.eq_def] at h
    simp only [Bool.not_eq_true] at h1 h2
    simp only [h1, h2, hsz, if_true, if_false, Bool.false_eq_true] at h
    rcases ih f h with hf | hf
    · rcases List.mem_append.mp hf with hf' | hf'
      · exact .inl hf'
      · rcases List.mem_singleton.mp hf' with rfl
        exact .inr ⟨h1, hsz⟩
    · exact .inr hf
  | case7 pref name rest files h1 h2 size hsz ih =>
    intro f h; rw [walkEntries.eq_def] at h
    simp only [Bool.not_eq_true] at h1 h2
    simp only [h1, h2, hsz, if_true, if_false, Bool.false_eq_true] at h
    exact ih f h
  | case8 pref name rest files h1 h2 size statOk hstat ih =>
    intro f h; rw [walkEntries.eq_def] at h
    simp only [Bool.not_eq_true] at h1 h2 hstat
    simp only [h1, h2, hstat, if_true, if_false, Bool.false_eq_true] at h
    exact ih f h

/-- Walking a directory listing with one more entry in front is walking the
remaining entries from some (possibly enlarged) accumulator. -/
theorem walkEntries_cons_shift (ig : String → Bool) (m : Nat)
    (pref : String) (e : String × FSTree) (rest : List (String × FSTree))
    (files : List FileStat) :
    ∃ files', walkEntries ig m pref (e :: rest) files
      = walkEntries ig m pref rest files' := by
  obtain ⟨name, t⟩ := e
  by_cases h1 : isHiddenPath (childRelPath pref name) = true
  · refine ⟨files, ?_⟩
    conv_lhs => rw [walkEntries.eq_def]
    simp only [h1, if_true]
  rw [Bool.not_eq_true] at h1
  by_cases h2 : ig (childRelPath pref name) = true
  · refine ⟨files, ?_⟩
    conv_lhs => rw [walkEntries.eq_def]
    simp only [h1, h2, Bool.false_eq_true, if_false, if_true]
  rw [Bool.not_eq_true] at h2
  cases t with
  | dir sub =>
    by_cases h3 : ig (childRelPath pref name ++ "/") = true
    · refine ⟨files, ?_⟩
      conv_lhs => rw [walkEntries.eq_def]
      simp only [h1, h2, h3, Bool.false_eq_true, if_false, if_true]
    rw [Bool.not_eq_true] at h3
    refine ⟨walkEntries ig m (childRelPath pref name) sub files, ?_⟩
    conv_lhs => rw [walkEntries.eq_def]
    simp only [h1, h2, h3, Bool.false_eq_true, if_false]
  | file size statOk =>
    cases statOk with
    | true =>
      by_cases h4 : size ≤ m
      · refine ⟨files ++ [⟨childRelPath pref name, size⟩], ?_⟩
        conv_lhs => rw [walkEntries.eq_def]
        simp only [h1, h2, h4, Bool.false_eq_true, if_false, if_true, ite_true]
      · refine ⟨files, ?_⟩
        conv_lhs => rw [walkEntries.eq_def]
        simp only [h1, h2, h4, Bool.false_eq_true, if_false, if_true, ite_false]
    | false =>
      refine ⟨files, ?_⟩
      conv_lhs => rw [walkEntries.eq_def]
      simp only [h1, h2, Bool.false_eq_true, if_false, if_true]

/-- A statable file entry of a directory listing whose relative path passes
the hidden check and the ignore check, and whose size is within the limit,
is collected by the walk of that listing. -/
theorem file_mem_walkEntries (ig : String → Bool) (m : Nat) (pref : String) :
    ∀ (es : List (String × FSTree)) (files : List FileStat)
      (name : String) (size : Nat),
      (name, FSTree.file size true) ∈ es →
      isHiddenPath (childRelPath pref name) = false →
      ig (childRelPath pref name) = false →
      size ≤ m →
      (⟨childRelPath pref name, size⟩ : FileStat) ∈ walkEntries ig m pref es files := by
  intro es
  induction es with
  | nil =>
    intro files name size hmem
    cases hmem
  | cons e rest ih =>
    intro files name size hmem hh hig hsz
    rcases List.mem_cons.mp hmem with he | hrest
    · rw [← he, walkEntries.eq_def]
      simp only [hh, hig, hsz, Bool.false_eq_true, if_false, if_true, ite_true, ite_false]
      exact mem_walkEntries_of_mem ig m pref rest _ _ (by simp)
    · obtain ⟨files', heq⟩ := walkEntries_cons_shift ig m pref e rest files
      rw [heq]
      exact ih files' name size hrest hh hig hsz

/-- No record of a finished walk has a hidden relative path. -/
theorem walkDirectory_not_hidden (root : Option (List (String × FSTree)))
    (ig : String → Bool) (m : Nat) :
    ∀ f ∈ walkDirectory root ig m, isHiddenPath f.path = false := by
  intro f hf
  cases root with
  | none => simp [walkDirectory] at hf
  | some entries =>
    rcases mem_walkEntries_elim ig m "" entries [] f hf with h | h
    · cases h
    · exact h.1

/-! ## Claim theorems -/

/-- C1: for every file count and byte total, the computed warning level is
`red` if the byte total strictly exceeds the error-byte threshold (50 MB)
or the file count strictly exceeds the error-count threshold (10,000);
otherwise `yellow` if the byte total strictly exceeds the warning-byte
threshold (15 MB) or the file count strictly exceeds the warning-count
threshold (2,500); otherwise `green`. -/
theorem getWarningLevel_three_tier_ladder (fileCount totalBytes : Nat) :
    getWarningLevel fileCount totalBytes =
      (if totalBytes > 50 * 1024 * 1024 ∨ fileCount > 10000 then .red
       else if totalBytes > 15 * 1024 * 1024 ∨ fileCount > 2500 then .yellow
       else .green) :=
  rfl

/-- C2: the walk result never contains a path having a component other than
`.` or `..` that begins with `.`, for every root tree and every ignore
predicate (in particular for every compiled rule set, negation patterns
included): the hidden-path check precedes pattern consultation, so no
pattern rule can bring a hidden path into the result. -/
theorem walk_never_includes_hidden_paths (root : Option (List (String × FSTree)))
    (ig : String → Bool) (maxFileSize : Nat) :
    ∀ f ∈ walkDirectory root ig maxFileSize,
      isHiddenPath f.path = false ∧
      ∀ part ∈ splitPath f.path,
        jsStartsWith part "." = true → part = "." ∨ part = ".." := by
  intro f hf
  have hfalse := walkDirectory_not_hidden root ig maxFileSize f hf
  refine ⟨hfalse, ?_⟩
  intro part hp hstart
  by_cases h1 : part = "."
  · exact .inl h1
  by_cases h2 : part = ".."
  · exact .inr h2
  exfalso
  unfold isHiddenPath at hfalse
  rw [List.any_eq_false] at hfalse
  have := hfalse part hp
  simp [hstart, h1, h2] at this

/-- C2 witness: a concrete walk containing the file `a.ts`, whose collected
record the theorem applies to. -/
theorem walk_never_includes_hidden_paths_witness :
    isHiddenPath (FileStat.mk "a.ts" 3).path = false :=
  (walk_never_includes_hidden_paths (some [("a.ts", FSTree.file 3 true)])
    (fun _ => false) 5 ⟨"a.ts", 3⟩
    (by simp [walkDirectory, walkEntries, childRelPath]; decide)).1

/-- C8: an included (non-hidden, non-ignored, statable) file appears in the
walk result iff its size is at most `maxFileSizeBytes`: every collected
record has `bytes ≤ maxFileSizeBytes` (so strictly larger files are
dropped), and a file of size exactly equal to (or below) the limit is
collected. -/
theorem walk_max_file_size_filter :
    (∀ (root : Option (List (String × FSTree))) (ig : String → Bool) (m : Nat),
      ∀ f ∈ walkDirectory root ig m, f.bytes ≤ m) ∧
    (∀ (ig : String → Bool) (m : Nat) (pref : String)
        (es : List (String × FSTree)) (files : List FileStat)
        (name : String) (size : Nat),
      (name, FSTree.file size true) ∈ es →
      isHiddenPath (childRelPath pref name) = false →
      ig (childRelPath pref name) = false →
      size ≤ m →
      (⟨childRelPath pref name, size⟩ : FileStat) ∈ walkEntries ig m pref es files) := by
  constructor
  · intro root ig m f hf
    cases root with
    | none => simp [walkDirectory] at hf
    | some entries =>
      rcases mem_walkEntries_elim ig m "" entries [] f hf with h | h
      · cases h
      · exact h.2
  · intro ig m pref es files name size hmem hh hig hsz
    exact file_mem_walkEntries ig m pref es files name size hmem hh hig hsz

/-- C8 witness: with limit 5, a 5-byte file (exactly at the limit) is
collected by the walk, and a collected record of a concrete walk containing
a 6-byte file is within the limit. -/
theorem walk_max_file_size_filter_witness :
    (⟨childRelPath "" "a.ts", 5⟩ : FileStat) ∈
      walkEntries (fun _ => false) 5 ""
        [("big.bin", FSTree.file 6 true), ("a.ts", FSTree.file 5 true)] [] :=
  walk_max_file_size_filter.2 (fun _ => false) 5 ""
    [("big.bin", FSTree.file 6 true), ("a.ts", FSTree.file 5 true)] []
    "a.ts" 5 (List.Mem.tail _ (List.Mem.head _)) (by decide) rfl (by decide)

/-- C10: the global pattern list contains the negation pattern
`!.env.example`, yet no file whose relative path has the component
`.env.example` is ever in a walk result, for any ignore predicate: the
hidden-path rule removes it before the rule set is consulted. -/
theorem env_example_negation_never_reincludes :
    "!.env.example" ∈ GLOBAL_IGNORE_PATTERNS ∧
    ∀ (root : Option (List (String × FSTree))) (ig : String → Bool) (m : Nat),
      ∀ f ∈ walkDirectory root ig m, ".env.example" ∉ splitPath f.path := by
  constructor
  · decide
  · intro root ig m f hf hpart
    have hfalse := walkDirectory_not_hidden root ig m f hf
    unfold isHiddenPath at hfalse
    rw [List.any_eq_false] at hfalse
    have hp := hfalse ".env.example" hpart
    simp at hp
    exact absurd hp (by decide)

/-- C10 witness: the theorem applied to a record of a concrete walk. -/
theorem env_example_negation_never_reincludes_witness :
    ".env.example" ∉ splitPath (FileStat.mk "a.ts" 3).path :=
  env_example_negation_never_reincludes.2 (some [("a.ts", FSTree.file 3 true)])
    (fun _ => false) 5 ⟨"a.ts", 3⟩
    (by simp [walkDirectory, walkEntries, childRelPath]; decide)

/-! ## Lemmas about the histogram -/

/-- Bumping one key raises the total of all counts by one. -/
theorem bumpExtCount_snd_sum (m : List (String × Nat)) (k : String) :
    ((bumpExtCount m k).map Prod.snd).sum = (m.map Prod.snd).sum + 1 := by
  induction m with
  | nil => simp [bumpExtCount]
  | cons p rest ih =>
    obtain ⟨k', c⟩ := p
    by_cases h : k' = k <;> simp [bumpExtCount, h, ih] <;> omega

/-- Folding the bump over a file list adds the list's length to the total
of all counts. -/
theorem foldl_bumpExtCount_snd_sum (files : List FileStat) :
    ∀ m : List (String × Nat),
      ((files.foldl (fun m file => bumpExtCount m (extKeyOfPath file.path)) m).map
          Prod.snd).sum
        = (m.map Prod.snd).sum + files.length := by
  induction files with
  | nil => intro m; simp
  | cons f rest ih =>
    intro m
    rw [List.foldl_cons, ih, bumpExtCount_snd_sum, List.length_cons]
    omega

/-- The histogram's counts sum to the number of input files. -/
theorem histogram_count_sum (files : List FileStat) :
    ((buildExtensionHistogram files).map ExtensionCount.count).sum = files.length := by
  unfold buildExtensionHistogram
  rw [((List.perm_insertionSort countDesc _).map ExtensionCount.count).sum_eq,
    List.map_map]
  have hcomp : (ExtensionCount.count ∘ fun p : String × Nat =>
      ({ ext := p.1, count := p.2 } : ExtensionCount)) = Prod.snd := rfl
  rw [hcomp]
  simpa using foldl_bumpExtCount_snd_sum files []

/-- C3: the diff's `newFiles` are exactly the current entries absent from
the baseline, `removedFiles` exactly the baseline entries absent from the
current list, and both outputs are sorted lexicographically ascending. -/
theorem compareToBaseline_set_difference_sorted (currentFiles : List String)
    (baseline : Baseline) :
    (∀ f, f ∈ (compareToBaseline currentFiles baseline).newFiles ↔
        f ∈ currentFiles ∧ f ∉ baseline.files) ∧
    (∀ f, f ∈ (compareToBaseline currentFiles baseline).removedFiles ↔
        f ∈ baseline.files ∧ f ∉ currentFiles) ∧
    List.Sorted (· ≤ ·) (compareToBaseline currentFiles baseline).newFiles ∧
    List.Sorted (· ≤ ·) (compareToBaseline currentFiles baseline).removedFiles := by
  refine ⟨?_, ?_, ?_, ?_⟩
  · intro f
    simp [compareToBaseline, jsSortStrings, List.mem_filter]
  · intro f
    simp [compareToBaseline, jsSortStrings, List.mem_filter]
  · exact List.sorted_insertionSort _ _
  · exact List.sorted_insertionSort _ _

/-- C4 counterexample: a current list with a duplicated entry absent from
the baseline produces a `newFiles` list with a duplicate (the loop iterates
over the raw array, not the set). -/
theorem compareToBaseline_duplicate_counterexample :
    List.Perm (compareToBaseline ["a", "a"]
        { timestamp := "", fileCount := 0, files := [] }).newFiles ["a", "a"] ∧
    ¬ (compareToBaseline ["a", "a"]
        { timestamp := "", fileCount := 0, files := [] }).newFiles.Nodup := by
  have hperm : List.Perm (compareToBaseline ["a", "a"]
      { timestamp := "", fileCount := 0, files := [] }).newFiles ["a", "a"] := by
    have h := List.perm_insertionSort (α := String) (· ≤ ·)
      (["a", "a"].filter fun file => !(([] : List String).contains file))
    simp only [List.filter, List.contains_nil, Bool.not_false] at h
    exact h
  refine ⟨hperm, fun hnd => ?_⟩
  have := hperm.nodup_iff.mp hnd
  simp at this

/-- C4 amended: the set is used only for membership tests, so the outputs
preserve the multiplicity of the iterated input lists; whenever the
corresponding input list is duplicate-free, the output list is
duplicate-free. -/
theorem compareToBaseline_nodup_of_nodup_input (currentFiles : List String)
    (baseline : Baseline) :
    (currentFiles.Nodup → (compareToBaseline currentFiles baseline).newFiles.Nodup) ∧
    (baseline.files.Nodup →
      (compareToBaseline currentFiles baseline).removedFiles.Nodup) := by
  constructor
  · intro h
    exact (List.perm_insertionSort _ _).nodup_iff.mpr (h.filter _)
  · intro h
    exact (List.perm_insertionSort _ _).nodup_iff.mpr (h.filter _)

/-- C4 witness: the amended theorem at a concrete duplicate-free input. -/
theorem compareToBaseline_nodup_of_nodup_input_witness :
    (["a"] : List String).Nodup ∧
    (compareToBaseline ["a"]
      { timestamp := "", fileCount := 1, files := ["b"] }).newFiles.Nodup :=
  ⟨by decide,
    (compareToBaseline_nodup_of_nodup_input ["a"]
      { timestamp := "", fileCount := 1, files := ["b"] }).1 (by decide)⟩

/-- C5: for every file record list, the histogram counts sum to the list
length and the top-ten truncation has length `min length 10`; for the plan
of a repo, `includedFileCount` is the length of the walked record list, the
histogram is that list's histogram (so the counts sum to
`includedFileCount`), and `topLargestFiles` is that list sorted by
descending size and truncated to the first 10 entries. -/
theorem computeRepoPlan_aggregate_invariants :
    (∀ files : List FileStat,
      ((buildExtensionHistogram files).map ExtensionCount.count).sum = files.length ∧
      ((files.insertionSort sizeDesc).take 10).length = min files.length 10) ∧
    (∀ (repoId repoName localDir repoPath : String) (ig : String → Bool)
        (entriesAt : Option (List (String × FSTree))) (options : PlanOptions),
      (computeRepoPlan repoId repoName localDir repoPath ig entriesAt
          options).includedFileCount
        = (walkDirectory entriesAt ig
            (resolveMaxFileSize options.maxFileSizeBytes)).length ∧
      (computeRepoPlan repoId repoName localDir repoPath ig entriesAt
          options).extensionHistogram
        = buildExtensionHistogram (walkDirectory entriesAt ig
            (resolveMaxFileSize options.maxFileSizeBytes)) ∧
      (computeRepoPlan repoId repoName localDir repoPath ig entriesAt
          options).topLargestFiles
        = ((walkDirectory entriesAt ig
            (resolveMaxFileSize options.maxFileSizeBytes)).insertionSort
              sizeDesc).take 10 ∧
      ((computeRepoPlan repoId repoName localDir repoPath ig entriesAt
          options).extensionHistogram.map ExtensionCount.count).sum
        = (computeRepoPlan repoId repoName localDir repoPath ig entriesAt
            options).includedFileCount ∧
      (computeRepoPlan repoId repoName localDir repoPath ig entriesAt
          options).topLargestFiles.length
        = min (computeRepoPlan repoId repoName localDir repoPath ig entriesAt
            options).includedFileCount 10) := by
  have hmin : ∀ files : List FileStat,
      ((files.insertionSort sizeDesc).take 10).length = min files.length 10 := by
    intro files
    rw [List.length_take, List.length_insertionSort, Nat.min_comm]
  constructor
  · intro files
    exact ⟨histogram_count_sum files, hmin files⟩
  · intro repoId repoName localDir repoPath ig entriesAt options
    refine ⟨rfl, rfl, rfl, ?_, ?_⟩
    · exact histogram_count_sum _
    · exact hmin _

/-! ## Lemmas about extension keys and buckets -/

/-- Splitting on a separator that does not occur yields the single whole
chunk. -/
theorem splitChars_of_not_mem (sep : Char) :
    ∀ l : List Char, sep ∉ l → splitChars sep l = [l] := by
  intro l
  induction l with
  | nil => intro _; rfl
  | cons c cs ih =>
    intro h
    have hc : ¬ c = sep := fun hc => h (hc ▸ List.mem_cons_self c cs)
    have hcs : sep ∉ cs := fun hm => h (List.mem_cons_of_mem c hm)
    rw [splitChars, ih hcs]
    simp [hc]

/-- A path without a separator is a single component. -/
theorem splitPath_of_no_slash (s : String) (h : '/' ∉ s.data) :
    splitPath s = [s] := by
  rw [splitPath, splitChars_of_not_mem '/' s.data h]
  rfl

/-- Scanning a dot-free character list finds no dot. -/
theorem lastDotIdxAux_of_not_mem :
    ∀ (l : List Char), '.' ∉ l → ∀ i, lastDotIdxAux l i = none := by
  intro l
  induction l with
  | nil => intro _ _; rfl
  | cons c cs ih =>
    intro h i
    have hc : ¬ c = '.' := fun hc => h (hc ▸ List.mem_cons_self c cs)
    have hcs : '.' ∉ cs := fun hm => h (List.mem_cons_of_mem c hm)
    rw [lastDotIdxAux, ih hcs]
    simp [hc]

/-- Scanning a list whose last dot ends a dot-free suffix finds exactly the
position of that dot. -/
theorem lastDotIdxAux_append (suffix : List Char) (hs : '.' ∉ suffix) :
    ∀ (pre : List Char) (i : Nat),
      lastDotIdxAux (pre ++ '.' :: suffix) i = some (i + pre.length) := by
  intro pre
  induction pre with
  | nil =>
    intro i
    rw [List.nil_append, lastDotIdxAux, lastDotIdxAux_of_not_mem suffix hs]
    simp
  | cons c pre' ih =>
    intro i
    rw [List.cons_append, lastDotIdxAux, ih (i + 1)]
    simp
    omega

/-- A name containing neither a separator nor a dot is keyed `(no ext)`. -/
theorem extKeyOfPath_of_no_dot (s : String) (hslash : '/' ∉ s.data)
    (hdot : '.' ∉ s.data) : extKeyOfPath s = "(no ext)" := by
  by_cases hempty : s = ""
  · subst hempty; rfl
  · have hne : (s != "") = true := by simp [hempty]
    rw [extKeyOfPath, extname, splitPath_of_no_slash s hslash]
    simp [hne, List.getLast?, extnameOfBase, lastDotIdxAux_of_not_mem s.data hdot]
    intro hcontra
    exact absurd rfl hcontra

/-- A name whose only dot is its leading character (a hidden-style name
such as `.env`) is keyed `(no ext)`. -/
theorem extKeyOfPath_of_leading_dot (s : String) (rest : List Char)
    (hslash : '/' ∉ s.data) (hdata : s.data = '.' :: rest)
    (hrest : '.' ∉ rest) : extKeyOfPath s = "(no ext)" := by
  have hempty : ¬ s = "" := by
    intro h; subst h; simp at hdata
  have hne : (s != "") = true := by simp [hempty]
  have hl := lastDotIdxAux_append rest hrest [] 0
  simp only [List.nil_append, List.length_nil, Nat.add_zero] at hl
  rw [extKeyOfPath, extname, splitPath_of_no_slash s hslash]
  simp [hne, List.getLast?, extnameOfBase, hdata, hl]
  intro hcontra
  exact absurd rfl hcontra

/-- A name with a dot that is not its leading character (and that is not the
special name `..`) is keyed by the lower-cased portion of the name from its
last dot. -/
theorem extKeyOfPath_of_inner_dot (s : String) (pre suffix : List Char)
    (hdata : s.data = pre ++ '.' :: suffix) (hpre : pre ≠ [])
    (hsuf : '.' ∉ suffix) (hslash : '/' ∉ s.data)
    (hnotdotdot : s.data ≠ ['.', '.']) :
    extKeyOfPath s = jsToLowerCase ⟨'.' :: suffix⟩ := by
  have hempty : ¬ s = "" := by
    intro h
    subst h
    obtain ⟨c, pre', rfl⟩ := List.exists_cons_of_ne_nil hpre
    simp at hdata
  have hne : (s != "") = true := by simp [hempty]
  have hl := lastDotIdxAux_append suffix hsuf pre 0
  simp only [Nat.zero_add] at hl
  have hlen : pre.length ≠ 0 := by
    simpa [List.length_eq_zero] using hpre
  rw [hdata] at hnotdotdot
  have hgl : ((([s] : List String).filter fun x => x != "").getLast?) = some s := by
    simp only [List.filter_cons, hne, if_true, List.filter_nil]
    rfl
  have hext : extname s = ⟨'.' :: suffix⟩ := by
    rw [extname, splitPath_of_no_slash s hslash]
    rw [hgl]
    show extnameOfBase s.data = _
    rw [hdata]
    simp only [extnameOfBase, hl]
    rw [if_neg (by simp [hlen, hnotdotdot]), List.drop_left]
  have hcond : ¬ jsToLowerCase (⟨'.' :: suffix⟩ : String) = "" := by
    simp [jsToLowerCase, String.ext_iff]
  rw [extKeyOfPath, hext, if_neg hcond]

/-- Bumping key `k` raises bucket `s` by one exactly when `k = s`. -/
theorem bumpExtCount_bucket_sum (m : List (String × Nat)) (k s : String) :
    (((bumpExtCount m k).filter fun p => p.1 == s).map Prod.snd).sum
      = ((m.filter fun p => p.1 == s).map Prod.snd).sum
        + (if k = s then 1 else 0) := by
  induction m with
  | nil =>
    by_cases h : k = s <;> simp [bumpExtCount, h]
  | cons p rest ih =>
    obtain ⟨k', c⟩ := p
    by_cases h : k' = k
    · subst h
      by_cases hs : k' = s
      · subst hs
        simp [bumpExtCount]
        omega
      · simp [bumpExtCount, hs]
    · by_cases hs : k' = s
      · subst hs
        simp [bumpExtCount, h, ih]
        omega
      · simp [bumpExtCount, h, hs, ih]

/-- Folding the bump over a file list adds to bucket `s` the number of files
whose key is `s`. -/
theorem foldl_bumpExtCount_bucket_sum (files : List FileStat) :
    ∀ (m : List (String × Nat)) (s : String),
      (((files.foldl (fun m file => bumpExtCount m (extKeyOfPath file.path)) m).filter
            fun p => p.1 == s).map Prod.snd).sum
        = ((m.filter fun p => p.1 == s).map Prod.snd).sum
          + (files.filter fun f => extKeyOfPath f.path == s).length := by
  induction files with
  | nil => intro m s; simp
  | cons f rest ih =>
    intro m s
    rw [List.foldl_cons, ih, bumpExtCount_bucket_sum]
    by_cases h : extKeyOfPath f.path = s
    · simp [List.filter_cons, h]
      omega
    · simp [List.filter_cons, h]

/-- The histogram's bucket `s` holds exactly the number of input files whose
key is `s`. -/
theorem histogram_bucket_sum (files : List FileStat) (s : String) :
    (((buildExtensionHistogram files).filter fun e => e.ext == s).map
        ExtensionCount.count).sum
      = (files.filter fun f => extKeyOfPath f.path == s).length := by
  unfold buildExtensionHistogram
  rw [(((List.perm_insertionSort countDesc _).filter _).map ExtensionCount.count).sum_eq]
  rw [List.filter_map, List.map_map]
  have hcomp : (ExtensionCount.count ∘ fun p : String × Nat =>
      ({ ext := p.1, count := p.2 } : ExtensionCount)) = Prod.snd := rfl
  have hfilt : ((fun e : ExtensionCount => e.ext == s) ∘ fun p : String × Nat =>
      ({ ext := p.1, count := p.2 } : ExtensionCount)) = fun p => p.1 == s := rfl
  rw [hcomp, hfilt]
  simpa using foldl_bumpExtCount_bucket_sum files [] s

/-- C9 counterexample: the file record `.env` has a dot in its name, yet it
is counted under the sentinel `(no ext)` bucket rather than under the
suffix after its last dot (`env`, or `.env` with the dot included): Node's
`path.extname` treats a leading dot as not starting an extension. -/
theorem buildExtensionHistogram_dotfile_counterexample :
    buildExtensionHistogram [⟨".env", 10⟩] = [{ ext := "(no ext)", count := 1 }] ∧
    '.' ∈ (".env" : String).data ∧
    "(no ext)" ≠ "env" ∧ "(no ext)" ≠ ".env" := by
  refine ⟨?_, by decide, by decide, by decide⟩
  decide

/-- C9 amended: every file is counted under the lower-cased portion of its
file name from its last dot; a file whose name has no dot, or whose only
dot is the leading character of its name (hidden-style names like `.env`),
or whose name is `..`, is counted under the sentinel `(no ext)` bucket; the
histogram entries are sorted by descending count. -/
theorem buildExtensionHistogram_keys_and_order :
    (∀ (files : List FileStat) (s : String),
      (((buildExtensionHistogram files).filter fun e => e.ext == s).map
          ExtensionCount.count).sum
        = (files.filter fun f => extKeyOfPath f.path == s).length) ∧
    (∀ files : List FileStat,
      List.Sorted countDesc (buildExtensionHistogram files)) ∧
    (∀ (s : String) (pre suffix : List Char),
      s.data = pre ++ '.' :: suffix → pre ≠ [] → '.' ∉ suffix →
      '/' ∉ s.data → s.data ≠ ['.', '.'] →
      extKeyOfPath s = jsToLowerCase ⟨'.' :: suffix⟩) ∧
    (∀ s : String, '/' ∉ s.data → '.' ∉ s.data →
      extKeyOfPath s = "(no ext)") ∧
    (∀ (s : String) (rest : List Char), '/' ∉ s.data →
      s.data = '.' :: rest → '.' ∉ rest →
      extKeyOfPath s = "(no ext)") := by
  refine ⟨histogram_bucket_sum, ?_, ?_, extKeyOfPath_of_no_dot,
    extKeyOfPath_of_leading_dot⟩
  · intro files
    exact List.sorted_insertionSort countDesc _
  · intro s pre suffix hdata hpre hsuf hslash hnotdotdot
    exact extKeyOfPath_of_inner_dot s pre suffix hdata hpre hsuf hslash hnotdotdot

/-- C9 witness: the amended key rules at concrete names — `App.TSX` is
keyed `.tsx`, `Makefile` has no dot and is keyed `(no ext)`, and the
hidden-style `.env` is keyed `(no ext)`. -/
theorem buildExtensionHistogram_keys_and_order_witness :
    extKeyOfPath "App.TSX" = jsToLowerCase ⟨'.' :: ['T', 'S', 'X']⟩ ∧
    extKeyOfPath "Makefile" = "(no ext)" ∧
    extKeyOfPath ".env" = "(no ext)" :=
  ⟨buildExtensionHistogram_keys_and_order.2.2.1 "App.TSX" ['A', 'p', 'p']
      ['T', 'S', 'X'] (by decide) (by decide) (by decide) (by decide) (by decide),
    buildExtensionHistogram_keys_and_order.2.2.2.1 "Makefile" (by decide) (by decide),
    buildExtensionHistogram_keys_and_order.2.2.2.2 ".env" ['e', 'n', 'v']
      (by decide) (by decide) (by decide)⟩

/-- C7: the rendered rule-set text is the header comment, then the global
rules first — each prefixed with `**/`, negated rules rendered with the `!`
marker as the first character of the line followed by `**/` and the rest of
the pattern — then, only when collection-specific rules exist for the id, a
commented section header followed by those rules verbatim; for an unknown
collection id the output is exactly the globally-derived text with no
collection-specific section. -/
theorem buildIgnoreContent_spec_render (repoId : String) :
    buildIgnoreContent repoId = specRenderRuleSet repoId ∧
    (getRepoIgnoreConfig repoId = none →
      buildIgnoreContent repoId = String.intercalate "\n"
        (ignoreHeaderLines ++ GLOBAL_IGNORE_PATTERNS.map specRenderGlobalRule
          ++ [""])) := by
  have hfun : (fun pattern =>
      if jsStartsWith pattern "!" then "!**/" ++ pattern.drop 1
      else "**/" ++ pattern) = specRenderGlobalRule := by
    funext pattern
    rfl
  have heq : buildIgnoreContent repoId = specRenderRuleSet repoId := by
    unfold buildIgnoreContent specRenderRuleSet specRenderRepoSection
    rw [hfun]
    cases hcfg : getRepoIgnoreConfig repoId with
    | none => simp
    | some cfg =>
      by_cases hd : cfg.dropPaths = []
      · simp [hd]
      · have hlen : 0 < cfg.dropPaths.length := List.length_pos.mpr hd
        simp [hd, hlen]
  refine ⟨heq, fun hnone => ?_⟩
  rw [heq]
  unfold specRenderRuleSet specRenderRepoSection
  rw [hnone]
  simp

/-- C7 witness: the rendering at a collection id with no specific rules. -/
theorem buildIgnoreContent_spec_render_witness :
    buildIgnoreContent "unknown-repo" = String.intercalate "\n"
      (ignoreHeaderLines ++ GLOBAL_IGNORE_PATTERNS.map specRenderGlobalRule
        ++ [""]) :=
  (buildIgnoreContent_spec_render "unknown-repo").2 rfl

/-- C6: an enabled collection whose root path does not exist still appears
in the overall plan's per-collection list (it is counted in `repoCount`),
with zero file count and byte total, warning level `green`, and the
explicit warning `Repo not cloned`; and walking a non-existent root yields
the empty file list rather than an error. -/
theorem computePlan_keeps_missing_repo (manifest : Manifest)
    (fsys : String → Option (List (String × FSTree)))
    (igFor : String → String → Bool) (maxBytes : Option Nat)
    (repo : RepoConfig) (hmem : repo ∈ getEnabledRepos manifest)
    (hmissing : fsys (getRepoPath manifest.defaultRoot repo.localDir) = none) :
    ∃ summary, computePlan manifest fsys igFor
        { maxFileSizeBytes := maxBytes, repoId := none } = .ok summary ∧
      summary.totals.repoCount = (getEnabledRepos manifest).length ∧
      (∃ entry ∈ summary.repos, entry.repoId = repo.id ∧
        entry.includedFileCount = 0 ∧ entry.includedTotalBytes = 0 ∧
        entry.warningLevel = .green ∧ entry.warnings = ["Repo not cloned"]) ∧
      (∀ (ig : String → Bool) (m : Nat), walkDirectory none ig m = []) := by
  refine ⟨_, rfl, ?_, ?_, fun _ _ => rfl⟩
  · exact List.length_map _ _
  · refine ⟨_, List.mem_map_of_mem _ hmem, ?_, ?_, ?_, ?_, ?_⟩
      <;> simp [hmissing]

/-- C6 witness: a one-collection manifest whose root is absent from the
file system. -/
theorem computePlan_keeps_missing_repo_witness :
    ∃ summary, computePlan
        { version := 1
          defaultRoot := "/root"
          defaultStore := "store"
          repos := [{ id := "r1"
                      name := "Repo One"
                      url := "u"
                      branch := "main"
                      category := .source
                      localDir := "r1"
                      enabled := true }] }
        (fun _ => none) (fun _ _ => false)
        { maxFileSizeBytes := none, repoId := none } = .ok summary ∧
      summary.totals.repoCount = (getEnabledRepos
        { version := 1
          defaultRoot := "/root"
          defaultStore := "store"
          repos := [{ id := "r1"
                      name := "Repo One"
                      url := "u"
                      branch := "main"
                      category := .source
                      localDir := "r1"
                      enabled := true }] }).length ∧
      (∃ entry ∈ summary.repos, entry.repoId = "r1" ∧
        entry.includedFileCount = 0 ∧ entry.includedTotalBytes = 0 ∧
        entry.warningLevel = .green ∧ entry.warnings = ["Repo not cloned"]) ∧
      (∀ (ig : String → Bool) (m : Nat), walkDirectory none ig m = []) :=
  computePlan_keeps_missing_repo
    { version := 1
      defaultRoot := "/root"
      defaultStore := "store"
      repos := [{ id := "r1"
                  name := "Repo One"
                  url := "u"
                  branch := "main"
                  category := .source
                  localDir := "r1"
                  enabled := true }] }
    (fun _ => none) (fun _ _ => false) none
    { id := "r1"
      name := "Repo One"
      url := "u"
      branch := "main"
      category := .source
      localDir := "r1"
      enabled := true }
    (by decide) rfl

end RefRepo
